import Mathlib

/-!
Verification development for the webpa-common fanout subsystem: the fan-out
race-and-merge coordinator, the HTTP fanout transport adapters
(middleware/fanout/fanouthttp/fanout.go), and the WRP client response
decoders (wrp/wrphttp/decoders.go).

Machine integers do not occur in the modelled code; errors are modelled as
`String`, decoded entities and WRP responses as opaque `Nat` values, and
fallible Go functions as `Except`-valued Lean functions.  Go functions that
may panic during construction return a `ConstructionResult`, which separates
a panic from an ordinary returned error.
-/

/-- Result of a Go construction-time function that may either return a value,
panic, or return an error value.  `panicked` models a Go `panic(...)`;
`errored` models a normal `return nil, err`. -/
inductive ConstructionResult (α : Type) where
  | ok (value : α)
  | panicked (msg : String)
  | errored (msg : String)

/-- True exactly when the construction panicked. -/
def ConstructionResult.isPanic {α : Type} : ConstructionResult α → Bool
  | .panicked _ => true
  | _ => false

/-- True exactly when the construction returned an ordinary error value. -/
def ConstructionResult.isErrored {α : Type} : ConstructionResult α → Bool
  | .errored _ => true
  | _ => false

/-- True exactly when the construction returned a value. -/
def ConstructionResult.isOk {α : Type} : ConstructionResult α → Bool
  | .ok _ => true
  | _ => false

/-- The constructed value, or the default when construction failed. -/
def ConstructionResult.valueOr {α : Type} : ConstructionResult α → α → α
  | .ok v, _ => v
  | _, d => d

/-! ## Tracing primitives and the fanout coordinator

Modelled from the spec: the implementation of `tracing.Span`/`tracing.Spanner`
and of `fanout.New` (package middleware/fanout) is not among the provided
source files; only its test file is.  The model below follows spec sections
3, 4.1, 4.2 and 5: a span is an immutable record of an attempt name and an
optional error (timing is not modelled), and the coordinator is a single
sequential decision loop consuming attempt-completion events and the
cancellation signal in real-time arrival order. -/

/-- Modelled from the spec: an immutable span records the attempt's
configuration-key name and the attempt's error (`none` on success).
Timestamps and durations are not modelled. -/
structure Span where
  name : String
  err : Option String
deriving DecidableEq

/-- Modelled from the spec: the spanner is a stateless span factory; the
coordinator only needs its presence, so it carries no data here. -/
structure Spanner where
deriving DecidableEq

/-- Modelled from the spec: one event consumed by the coordinator's decision
loop, in real completion order: an attempt completed with a success response,
an attempt completed with a failure, or the call's cancellation token fired. -/
inductive FanoutEvent where
  | success (name : String) (response : Nat)
  | failure (name : String) (err : String)
  | cancel (cause : String)
deriving DecidableEq

/-- True exactly when the event is an attempt failure completion. -/
def FanoutEvent.isFailure : FanoutEvent → Bool
  | .failure _ _ => true
  | _ => false

/-- The span finalized for a completion event: named for the attempt's
configuration key, carrying the attempt's error (`none` on success).
The `cancel` case never produces a span; its value here is arbitrary. -/
def eventSpan : FanoutEvent → Span
  | .success name _ => ⟨name, none⟩
  | .failure name e => ⟨name, some e⟩
  | .cancel _ => ⟨"", none⟩

/-- Modelled from the spec: the terminal outcome of one fan-out call.
`success response spans` models resolving with a non-nil span-decorated
response and a nil error; `failure cause spans` models resolving with a nil
response and a span-decorated error whose cause is `cause`. -/
inductive FanoutOutcome where
  | success (response : Nat) (spans : List Span)
  | failure (cause : String) (spans : List Span)
deriving DecidableEq

/-- Modelled from the spec (section 4.2, resolution rules): the coordinator's
sequential decision loop.  `events` is the stream of completion/cancellation
events in real arrival order, `remaining` the number of attempts still
outstanding, `spans` the accumulated span list.  A success resolves the call
immediately with the accumulated spans plus the winner's span; a failure
appends its span and resolves with that failure as cause only when it was the
last outstanding attempt; a cancellation resolves immediately with the spans
accumulated so far.  `none` means the call has not resolved on this event
stream. -/
def decisionLoop : List FanoutEvent → Nat → List Span → Option FanoutOutcome
  | [], _, _ => none
  | FanoutEvent.success name response :: _, _, spans =>
      some (FanoutOutcome.success response (spans ++ [⟨name, none⟩]))
  | FanoutEvent.failure name e :: rest, remaining, spans =>
      if remaining ≤ 1 then
        some (FanoutOutcome.failure e (spans ++ [⟨name, some e⟩]))
      else
        decisionLoop rest (remaining - 1) (spans ++ [⟨name, some e⟩])
  | FanoutEvent.cancel cause :: _, _, spans =>
      some (FanoutOutcome.failure cause spans)

/-- Modelled from the spec: one fan-out call over `attemptCount` configured
attempts whose completion/cancellation events arrive in the order given. -/
def fanoutCall (attemptCount : Nat) (events : List FanoutEvent) : Option FanoutOutcome :=
  decisionLoop events attemptCount []

/-- Modelled from the spec: a constructed coordinator pairs the validated
spanner with the configured name-to-endpoint mapping.  The endpoint type is
abstract, so construction cannot invoke any endpoint. -/
structure Coordinator (α : Type) where
  spanner : Spanner
  endpoints : List (String × α)

/-- Modelled from the spec (section 4.2, construction contract) and the test
file for `fanout.New`: construction panics on a nil spanner and on a nil or
empty endpoint mapping, and otherwise returns a coordinator. -/
def fanoutNew {α : Type} (spanner : Option Spanner) (endpoints : List (String × α)) :
    ConstructionResult (Coordinator α) :=
  match spanner with
  | none => ConstructionResult.panicked "fanout: the spanner cannot be nil"
  | some s =>
      if endpoints.isEmpty then
        ConstructionResult.panicked "fanout: no configured endpoints"
      else
        ConstructionResult.ok ⟨s, endpoints⟩

/-! ### Coordinator lemmas -/

/-- While more than one attempt is outstanding, processing a prefix of
failure completions only accumulates their spans. -/
theorem decisionLoop_failures_skip :
    ∀ (pre rest : List FanoutEvent) (remaining : Nat) (spans : List Span),
      (∀ ev ∈ pre, ev.isFailure = true) → pre.length < remaining →
      decisionLoop (pre ++ rest) remaining spans =
        decisionLoop rest (remaining - pre.length) (spans ++ pre.map eventSpan) := by
  intro pre
  induction pre with
  | nil =>
      intro rest remaining spans _ _
      simp
  | cons ev tail ih =>
      intro rest remaining spans hfail hlen
      cases ev with
      | success name r =>
          have := hfail _ (List.mem_cons_self _ _)
          simp [FanoutEvent.isFailure] at this
      | cancel c =>
          have := hfail _ (List.mem_cons_self _ _)
          simp [FanoutEvent.isFailure] at this
      | failure name e =>
          have hrem : ¬ remaining ≤ 1 := by
            simp only [List.length_cons] at hlen
            omega
          have htail : ∀ ev ∈ tail, ev.isFailure = true := by
            intro ev hev
            exact hfail ev (List.mem_cons_of_mem _ hev)
          have htlen : tail.length < remaining - 1 := by
            simp only [List.length_cons] at hlen
            omega
          rw [List.cons_append]
          rw [show decisionLoop (FanoutEvent.failure name e :: (tail ++ rest)) remaining spans =
                decisionLoop (tail ++ rest) (remaining - 1) (spans ++ [⟨name, some e⟩]) by
              simp [decisionLoop, hrem]]
          rw [ih _ _ _ htail htlen]
          have harith : remaining - 1 - tail.length = remaining - (tail.length + 1) := by omega
          rw [harith]
          simp [eventSpan, List.append_assoc]

/-- C1: for every fan-out call over N ≥ 1 configured attempts in which exactly
one attempt returns success (every other attempt fails), the call resolves
with a success outcome (non-nil response, nil error) and the resolved span
sequence's last entry is named for the winning attempt's configuration key
and carries no error.  The winning attempt's completion position in the event
stream is arbitrary: `pre` are the failures that complete before it, `post`
those that would complete after it. -/
theorem fanout_success_wins (pre post : List FanoutEvent) (name : String) (r : Nat)
    (hpre : ∀ ev ∈ pre, ev.isFailure = true)
    (hpost : ∀ ev ∈ post, ev.isFailure = true) :
    fanoutCall (pre.length + 1 + post.length) (pre ++ FanoutEvent.success name r :: post) =
      some (FanoutOutcome.success r (pre.map eventSpan ++ [⟨name, none⟩])) ∧
    (pre.map eventSpan ++ [(⟨name, none⟩ : Span)]).getLast? = some (⟨name, none⟩ : Span) := by
  refine ⟨?_, ?_⟩
  · unfold fanoutCall
    rw [decisionLoop_failures_skip pre _ _ [] hpre (by omega)]
    simp [decisionLoop]
  · simp [List.getLast?_append_cons]

/-- Witness for C1 at a concrete two-attempt call: one failure completes
first, then the single success. -/
theorem fanout_success_wins_witness :
    fanoutCall 2 [FanoutEvent.failure "f1" "e1", FanoutEvent.success "winner" 42] =
      some (FanoutOutcome.success 42 [⟨"f1", some "e1"⟩, ⟨"winner", none⟩]) ∧
    ([⟨"f1", some "e1"⟩, (⟨"winner", none⟩ : Span)]).getLast? = some ⟨"winner", none⟩ :=
  fanout_success_wins [FanoutEvent.failure "f1" "e1"] [] "winner" 42
    (by decide) (by decide)

/-- C2: for every fan-out call in which all N configured attempts fail, the
call resolves with a failure outcome (nil response) whose span sequence has
length exactly N and whose cause is the error of the attempt that completed
last in real time — the final event of the completion stream, regardless of
configuration order. -/
theorem fanout_all_fail (pre : List FanoutEvent) (name e : String)
    (hpre : ∀ ev ∈ pre, ev.isFailure = true) :
    fanoutCall (pre.length + 1) (pre ++ [FanoutEvent.failure name e]) =
      some (FanoutOutcome.failure e ((pre ++ [FanoutEvent.failure name e]).map eventSpan)) ∧
    ((pre ++ [FanoutEvent.failure name e]).map eventSpan).length = pre.length + 1 := by
  refine ⟨?_, by simp⟩
  unfold fanoutCall
  rw [decisionLoop_failures_skip pre _ _ [] hpre (by omega)]
  have hone : pre.length + 1 - pre.length = 1 := by omega
  rw [hone]
  simp [decisionLoop, eventSpan]

/-- Witness for C2 at a concrete two-attempt call in which both attempts fail
and the attempt named f2 completes last. -/
theorem fanout_all_fail_witness :
    fanoutCall 2 [FanoutEvent.failure "f1" "e1", FanoutEvent.failure "f2" "last error"] =
      some (FanoutOutcome.failure "last error" [⟨"f1", some "e1"⟩, ⟨"f2", some "last error"⟩]) ∧
    ([FanoutEvent.failure "f1" "e1", FanoutEvent.failure "f2" "last error"].map eventSpan).length
      = 2 :=
  fanout_all_fail [FanoutEvent.failure "f1" "e1"] "f2" "last error" (by decide)

/-- C3: for every fan-out call whose cancellation signal arrives before the
call has resolved (every earlier completion is a failure and at least one
attempt is still outstanding), the call resolves with a failure outcome whose
cause is the cancellation cause and whose span sequence is exactly the spans
of the attempts that completed strictly before the cancellation signal — in
particular the empty sequence when the cancellation fires before any attempt
completes. -/
theorem fanout_cancelled (pre rest : List FanoutEvent) (cause : String) (n : Nat)
    (hpre : ∀ ev ∈ pre, ev.isFailure = true) (hlen : pre.length < n) :
    fanoutCall n (pre ++ FanoutEvent.cancel cause :: rest) =
      some (FanoutOutcome.failure cause (pre.map eventSpan)) := by
  unfold fanoutCall
  rw [decisionLoop_failures_skip pre _ _ [] hpre hlen]
  simp [decisionLoop]

/-- Witness for C3 at a concrete single-attempt call whose cancellation token
fires before the attempt completes: the span sequence is empty and the cause
is the context cancellation error. -/
theorem fanout_cancelled_witness :
    fanoutCall 1 [FanoutEvent.cancel "context canceled"] =
      some (FanoutOutcome.failure "context canceled" []) :=
  fanout_cancelled [] [] "context canceled" 1 (by decide) (by decide)

/-- C4: constructing the fan-out coordinator with a nil spanner, or with a
nil or empty endpoint mapping, panics deterministically at construction; no
coordinator is returned, and since the endpoint type is abstract here, no
configured endpoint can have been invoked. -/
theorem fanout_new_rejects_misconfiguration {α : Type}
    (spanner : Option Spanner) (endpoints : List (String × α))
    (h : spanner = none ∨ endpoints = []) :
    (fanoutNew spanner endpoints).isPanic = true := by
  rcases h with h | h
  · subst h
    rfl
  · subst h
    cases spanner with
    | none => rfl
    | some s => rfl

/-- Witness for C4: a nil spanner with one configured endpoint panics, and a
present spanner with an empty endpoint mapping panics. -/
theorem fanout_new_rejects_misconfiguration_witness :
    (fanoutNew (α := Unit) none [("test", ())]).isPanic = true ∧
    (fanoutNew (α := Unit) (some ⟨⟩) []).isPanic = true :=
  ⟨fanout_new_rejects_misconfiguration none [("test", ())] (Or.inl rfl),
   fanout_new_rejects_misconfiguration (some ⟨⟩) [] (Or.inr rfl)⟩

/-! ## HTTP model for the fanout transport adapters

Embedding of middleware/fanout/fanouthttp/fanout.go.  A URL keeps exactly the
fields that file reads or writes: `scheme`, `host`, `user`, `path`, and
`rawQuery` (net/url's Opaque, Fragment and escaping are not used by the
modelled code and are omitted).  An HTTP request is its method plus its URL;
the entity body is handled only through the opaque decoded entity. -/

structure URL where
  scheme : String
  host : String
  user : Option String
  path : String
  rawQuery : String
deriving DecidableEq

structure HTTPRequest where
  method : String
  url : URL
deriving DecidableEq

/-- Decoded HTTP entity produced by the configured DecodeRequestFunc;
opaque to the adapter, modelled as a `Nat`. -/
abbrev Entity := Nat

/-- The entity decode hook handed to `decodeFanoutRequest`
(go-kit DecodeRequestFunc specialized to the entity result). -/
abbrev EntityDecoder := HTTPRequest → Except String Entity

/-- The entity encode hook handed to `encodeComponentRequest`
(go-kit EncodeRequestFunc: receives the outbound component request and the
decoded entity, returns the updated component request or an error). -/
abbrev EntityEncoder := HTTPRequest → Entity → Except String HTTPRequest

/-- fanoutRequest: the internal type passed to component requests, carrying
the unmodified original request, the original URL with absolute fields
removed, and the parsed entity. -/
structure FanoutRequest where
  original : HTTPRequest
  relativeURL : URL
  entity : Entity
deriving DecidableEq

/-- Model of Go's strings-based helper inside net/url resolvePath: the merged
path before dot-segment removal — `ref` when it is empty or absolute,
otherwise `base` truncated after its last slash followed by `ref`. -/
def mergePaths (base ref : String) : String :=
  if ref = "" then base
  else if ref.startsWith "/" then ref
  else
    let parts := base.splitOn "/"
    if parts.length ≤ 1 then ref
    else String.intercalate "/" parts.dropLast ++ "/" ++ ref

/-- Model of net/url's resolvePath (Go 1.x): merge the two paths, remove
single-dot segments, resolve double-dot segments against the output stack,
re-add a trailing slash when the last segment was a dot segment, and return
the result rooted at a single leading slash. -/
def resolvePath (base ref : String) : String :=
  let full := mergePaths base ref
  if full = "" then ""
  else
    let src := full.splitOn "/"
    let dst := src.foldl
      (fun dst elem =>
        if elem = "." then dst
        else if elem = ".." then dst.dropLast
        else dst ++ [elem])
      []
    let dst :=
      match src.getLast? with
      | some last => if last = "." ∨ last = ".." then dst ++ [""] else dst
      | none => dst
    "/" ++ String.mk (((String.intercalate "/" dst).toList).dropWhile (· = '/'))

/-- Model of net/url's `URL.ResolveReference` (Go 1.x) restricted to the URL
fields carried by this model: the absolute/net-path case keeps the reference
authority, an empty-path-and-query reference inherits the base path and
query, and otherwise the base authority is combined with the reference path
resolved against the base path and with the reference query. -/
def resolveReference (u ref : URL) : URL :=
  let url := ref
  let url := if ref.scheme = "" then { url with scheme := u.scheme } else url
  if ref.scheme ≠ "" ∨ ref.host ≠ "" ∨ ref.user ≠ none then
    { url with path := resolvePath ref.path "" }
  else if ref.path = "" ∧ ref.rawQuery = "" then
    { url with
        rawQuery := u.rawQuery
        host := u.host
        user := u.user
        path := resolvePath u.path ref.path }
  else
    { url with
        host := u.host
        user := u.user
        path := resolvePath u.path ref.path }

/-- The request decoder produced by `decodeFanoutRequest` for a non-nil
entity decoder: run the entity decoder once, propagate its error unchanged,
and otherwise build the fanoutRequest around a copy of the original URL with
Scheme, Host and User cleared. -/
def decodeFanoutRequestFn (dec : EntityDecoder) (original : HTTPRequest) :
    Except String FanoutRequest :=
  match dec original with
  | Except.error err => Except.error err
  | Except.ok entity =>
      let relativeURL := original.url
      let relativeURL := { relativeURL with scheme := "", host := "", user := none }
      Except.ok { original := original, relativeURL := relativeURL, entity := entity }

/-- decodeFanoutRequest: panics when the entity decoder is nil, otherwise
returns the wrapping request decoder. -/
def decodeFanoutRequest (dec : Option EntityDecoder) :
    ConstructionResult (HTTPRequest → Except String FanoutRequest) :=
  match dec with
  | none => ConstructionResult.panicked "The entity decoder cannot be nil"
  | some d => ConstructionResult.ok (decodeFanoutRequestFn d)

/-- The component request encoder produced by `encodeComponentRequest` for a
non-nil entity encoder: copy the original request's method onto the component
request, resolve the component's configured URL against the shared relative
URL, and hand the component request together with the decoded entity (never
the fanoutRequest itself) to the entity encoder. -/
def encodeComponentRequestFn (enc : EntityEncoder) (component : HTTPRequest)
    (v : FanoutRequest) : Except String HTTPRequest :=
  let component := { component with method := v.original.method }
  let component := { component with url := resolveReference component.url v.relativeURL }
  enc component v.entity

/-- encodeComponentRequest: panics when the entity encoder is nil, otherwise
returns the component request encoder. -/
def encodeComponentRequest (enc : Option EntityEncoder) :
    ConstructionResult (HTTPRequest → FanoutRequest → Except String HTTPRequest) :=
  match enc with
  | none => ConstructionResult.panicked "The entity encoder cannot be nil"
  | some e => ConstructionResult.ok (encodeComponentRequestFn e)

/-! ### Request adapter theorems -/

/-- C6: the fanout request decoder errors exactly when the entity decode hook
errors, surfacing the hook's error unchanged and producing no fanout request;
when the hook succeeds, the produced fanout request's relative URL is the
inbound URL with scheme and host cleared and user removed, path and query
retained, and its entity is the hook's result. -/
theorem decode_fanout_request_spec (dec : EntityDecoder) (original : HTTPRequest) :
    (∀ err, decodeFanoutRequestFn dec original = Except.error err ↔
        dec original = Except.error err) ∧
    (∀ entity, dec original = Except.ok entity →
        decodeFanoutRequestFn dec original =
          Except.ok { original := original,
                      relativeURL := { scheme := "", host := "", user := none,
                                       path := original.url.path,
                                       rawQuery := original.url.rawQuery },
                      entity := entity }) := by
  constructor
  · intro err
    cases h : dec original <;> simp [decodeFanoutRequestFn, h]
  · intro entity h
    simp [decodeFanoutRequestFn, h]

/-- C7: encoding a component request copies the inbound method onto the
outbound request, resolves the configured component base URL against the
shared relative URL (so the configured scheme, host and user are combined
with the inbound relative path and query), and invokes the configured encode
hook with the decoded entity only, never with the fanout request itself. -/
theorem encode_component_request_spec (enc : EntityEncoder) (component : HTTPRequest)
    (v : FanoutRequest)
    (hs : v.relativeURL.scheme = "") (hh : v.relativeURL.host = "")
    (hu : v.relativeURL.user = none)
    (hne : ¬ (v.relativeURL.path = "" ∧ v.relativeURL.rawQuery = "")) :
    encodeComponentRequestFn enc component v =
      enc { method := v.original.method,
            url := { scheme := component.url.scheme,
                     host := component.url.host,
                     user := component.url.user,
                     path := resolvePath component.url.path v.relativeURL.path,
                     rawQuery := v.relativeURL.rawQuery } }
          v.entity := by
  obtain ⟨m, us, uh, uu, up, uq⟩ := component
  obtain ⟨orig, ⟨rs, rh, ru, rp, rq⟩, ent⟩ := v
  simp only at hs hh hu hne
  subst hs hh hu
  simp [encodeComponentRequestFn, resolveReference, hne]

/-- C10: decoding a fanout request leaves the original inbound request
untouched: the successful fanout request's original-request field is exactly
the inbound request, with its URL's scheme, host and user unchanged. -/
theorem decode_fanout_request_preserves_original (dec : EntityDecoder)
    (original : HTTPRequest) (fr : FanoutRequest)
    (h : decodeFanoutRequestFn dec original = Except.ok fr) :
    fr.original = original ∧
    fr.original.url.scheme = original.url.scheme ∧
    fr.original.url.host = original.url.host ∧
    fr.original.url.user = original.url.user := by
  cases hd : dec original with
  | error e => simp [decodeFanoutRequestFn, hd] at h
  | ok entity =>
      simp [decodeFanoutRequestFn, hd] at h
      subst h
      simp

/-! ### Concrete fixtures used by the witnesses -/

def sampleRequest : HTTPRequest :=
  { method := "POST",
    url := { scheme := "https", host := "example.com", user := some "u",
             path := "/api/v2/device", rawQuery := "a=1" } }

def entityDecoderOk : EntityDecoder := fun _ => Except.ok 7

def entityEncoderId : EntityEncoder := fun component _ => Except.ok component

def sampleFanoutRequest : FanoutRequest :=
  { original := sampleRequest,
    relativeURL := { scheme := "", host := "", user := none,
                     path := "/api/v2/device", rawQuery := "a=1" },
    entity := 7 }

def sampleComponent : HTTPRequest :=
  { method := "GET",
    url := { scheme := "http", host := "backend1", user := none,
             path := "/base", rawQuery := "" } }

/-- Witness for C6 at a concrete inbound request and a succeeding hook. -/
theorem decode_fanout_request_spec_witness :
    decodeFanoutRequestFn entityDecoderOk sampleRequest = Except.ok sampleFanoutRequest :=
  (decode_fanout_request_spec entityDecoderOk sampleRequest).2 7 rfl

/-- Witness for C7 at a concrete component base URL and fanout request. -/
theorem encode_component_request_spec_witness :
    encodeComponentRequestFn entityEncoderId sampleComponent sampleFanoutRequest =
      entityEncoderId
        { method := "POST",
          url := { scheme := "http", host := "backend1", user := none,
                   path := resolvePath "/base" "/api/v2/device", rawQuery := "a=1" } }
        7 :=
  encode_component_request_spec entityEncoderId sampleComponent sampleFanoutRequest
    rfl rfl rfl (by simp [sampleFanoutRequest])

/-- Witness for C10 at a concrete inbound request. -/
theorem decode_fanout_request_preserves_original_witness :
    sampleFanoutRequest.original = sampleRequest ∧
    sampleFanoutRequest.original.url.scheme = sampleRequest.url.scheme ∧
    sampleFanoutRequest.original.url.host = sampleRequest.url.host ∧
    sampleFanoutRequest.original.url.user = sampleRequest.url.user :=
  decode_fanout_request_preserves_original entityDecoderOk sampleRequest
    sampleFanoutRequest rfl

/-! ## Component endpoint factory (NewComponents) -/

/-- An HTTP response as seen by the component response decoders: status code,
Content-Type header value, and entity body (bytes modelled as a string). -/
structure HTTPResponse where
  statusCode : Nat
  contentType : String
  body : String
deriving DecidableEq

/-- The component response decode hook (go-kit DecodeResponseFunc),
opaque to NewComponents. -/
abbrev DecodeResponseFunc := HTTPResponse → Except String Nat

/-- One component client as constructed by NewComponents via go-kit's
NewClient: the placeholder method, the parsed target URL, the wrapped
component request encoder, and the supplied response decoder. -/
structure ComponentClient where
  method : String
  target : URL
  encode : HTTPRequest → FanoutRequest → Except String HTTPRequest
  decode : DecodeResponseFunc

/-- The name-to-endpoint mapping produced by NewComponents, keyed by the raw
configured URL string (a Go map modelled as a key-unique association list). -/
abbrev Components := List (String × ComponentClient)

/-- Go map assignment `components[raw] = client`: replace the binding if the
key is present, otherwise append a new binding. -/
def mapInsert : Components → String → ComponentClient → Components
  | [], k, v => [(k, v)]
  | (k0, v0) :: rest, k, v =>
      if k0 = k then (k, v) :: rest else (k0, v0) :: mapInsert rest k v

/-- Go map membership test on the components mapping. -/
def containsKey : Components → String → Bool
  | [], _ => false
  | (k0, _) :: rest, k => k0 == k || containsKey rest k

/-- A raw target base address is valid when it parses and the parsed URL has
a scheme and no query string — the two checks NewComponents performs. -/
def validTarget (parse : String → Option URL) (raw : String) : Bool :=
  match parse raw with
  | none => false
  | some target => (target.scheme != "") && (target.rawQuery == "")

/-- The loop body of NewComponents over the supplied URL list: parse each raw
address (URL parsing is an external collaborator, passed in as `parse`),
reject a missing scheme or a present query string by returning an error, and
otherwise register one client per raw address built from the placeholder GET
method, the parsed target, the wrapped encoder and the supplied decoder. -/
def newComponentsLoop (parse : String → Option URL) (enc : Option EntityEncoder)
    (dec : DecodeResponseFunc) : List String → Components → ConstructionResult Components
  | [], components => ConstructionResult.ok components
  | raw :: rest, components =>
      match parse raw with
      | none => ConstructionResult.errored ("cannot parse endpoint: " ++ raw)
      | some target =>
          if target.scheme = "" then
            ConstructionResult.errored ("Endpoint does not specify a scheme: " ++ raw)
          else if target.rawQuery ≠ "" then
            ConstructionResult.errored ("Endpoint specifies a query string: " ++ raw)
          else
            match encodeComponentRequest enc with
            | ConstructionResult.panicked msg => ConstructionResult.panicked msg
            | ConstructionResult.errored msg => ConstructionResult.errored msg
            | ConstructionResult.ok encFn =>
                newComponentsLoop parse enc dec rest
                  (mapInsert components raw
                    { method := "GET", target := target, encode := encFn, decode := dec })

/-- NewComponents: produce a mapped set of component endpoints, one for each
supplied URL, starting from an empty mapping. -/
def NewComponents (parse : String → Option URL) (urls : List String)
    (enc : Option EntityEncoder) (dec : DecodeResponseFunc) : ConstructionResult Components :=
  newComponentsLoop parse enc dec urls []

/-! ### Components map lemmas -/

theorem containsKey_mapInsert (m : Components) (k k' : String) (v : ComponentClient) :
    containsKey (mapInsert m k v) k' = (k == k' || containsKey m k') := by
  induction m with
  | nil => simp [mapInsert, containsKey]
  | cons p rest ih =>
      obtain ⟨k0, v0⟩ := p
      by_cases h : k0 = k
      · subst h
        simp only [mapInsert, if_pos rfl, containsKey]
        cases hk : k0 == k' <;> simp [hk]
      · simp only [mapInsert, if_neg h, containsKey, ih]
        cases hk0 : k0 == k' <;> cases hk : k == k' <;> simp [hk0, hk]

theorem mem_keys_mapInsert (m : Components) (k a : String) (v : ComponentClient) :
    a ∈ (mapInsert m k v).map Prod.fst ↔ a = k ∨ a ∈ m.map Prod.fst := by
  induction m with
  | nil => simp [mapInsert]
  | cons p rest ih =>
      obtain ⟨k0, v0⟩ := p
      by_cases h : k0 = k
      · have hred : mapInsert ((k0, v0) :: rest) k v = (k, v) :: rest := by
          simp only [mapInsert, if_pos h]
        rw [hred]
        subst h
        simp only [List.map_cons, List.mem_cons]
        tauto
      · have hred : mapInsert ((k0, v0) :: rest) k v = (k0, v0) :: mapInsert rest k v := by
          simp only [mapInsert, if_neg h]
        rw [hred]
        simp only [List.map_cons, List.mem_cons, ih]
        tauto

theorem keys_nodup_mapInsert (m : Components) (k : String) (v : ComponentClient)
    (h : (m.map Prod.fst).Nodup) : ((mapInsert m k v).map Prod.fst).Nodup := by
  induction m with
  | nil => simp [mapInsert]
  | cons p rest ih =>
      obtain ⟨k0, v0⟩ := p
      simp only [List.map_cons, List.nodup_cons] at h
      by_cases hk : k0 = k
      · have hred : mapInsert ((k0, v0) :: rest) k v = (k, v) :: rest := by
          simp only [mapInsert, if_pos hk]
        rw [hred]
        subst hk
        simp only [List.map_cons, List.nodup_cons]
        exact h
      · have hred : mapInsert ((k0, v0) :: rest) k v = (k0, v0) :: mapInsert rest k v := by
          simp only [mapInsert, if_neg hk]
        rw [hred]
        simp only [List.map_cons, List.nodup_cons]
        constructor
        · rw [mem_keys_mapInsert]
          rintro (rfl | hmem)
          · exact hk rfl
          · exact h.1 hmem
        · exact ih h.2

/-- Unfolding of validity: a target is valid exactly when it parses to a URL
with a scheme and without a query string. -/
theorem validTarget_true_iff (parse : String → Option URL) (raw : String) :
    validTarget parse raw = true ↔
      ∃ target, parse raw = some target ∧ target.scheme ≠ "" ∧ target.rawQuery = "" := by
  cases hp : parse raw <;> simp [validTarget, hp]

/-- One loop step over a valid raw address registers its client and
continues. -/
theorem newComponentsLoop_valid_step (parse : String → Option URL) (e : EntityEncoder)
    (dec : DecodeResponseFunc) (raw : String) (rest : List String) (acc : Components)
    (target : URL) (hp : parse raw = some target)
    (hs : target.scheme ≠ "") (hq : target.rawQuery = "") :
    newComponentsLoop parse (some e) dec (raw :: rest) acc =
      newComponentsLoop parse (some e) dec rest
        (mapInsert acc raw
          { method := "GET", target := target,
            encode := encodeComponentRequestFn e, decode := dec }) := by
  simp only [newComponentsLoop, hp]
  rw [if_neg hs, if_neg (by simp [hq])]
  rfl

/-- One loop step over an invalid raw address returns an error value. -/
theorem newComponentsLoop_invalid_step (parse : String → Option URL) (e : EntityEncoder)
    (dec : DecodeResponseFunc) (raw : String) (rest : List String) (acc : Components)
    (hv : validTarget parse raw = false) :
    (newComponentsLoop parse (some e) dec (raw :: rest) acc).isErrored = true := by
  cases hp : parse raw with
  | none =>
      simp only [newComponentsLoop, hp]
      rfl
  | some target =>
      simp only [validTarget, hp, Bool.and_eq_false_iff] at hv
      by_cases hs : target.scheme = ""
      · simp only [newComponentsLoop, hp]
        rw [if_pos hs]
        rfl
      · have hq : target.rawQuery ≠ "" := by
          rcases hv with hv | hv
          · simp [hs] at hv
          · simpa using hv
        simp only [newComponentsLoop, hp]
        rw [if_neg hs, if_pos hq]
        rfl

/-- When every supplied address is valid, the loop returns a mapping whose
key set is the supplied addresses plus the accumulator's keys, preserving
key uniqueness. -/
theorem newComponentsLoop_all_valid (parse : String → Option URL) (e : EntityEncoder)
    (dec : DecodeResponseFunc) :
    ∀ (urls : List String) (acc : Components),
      (∀ raw ∈ urls, validTarget parse raw = true) →
      ∃ c, newComponentsLoop parse (some e) dec urls acc = ConstructionResult.ok c ∧
        (∀ k, containsKey c k = true ↔ (k ∈ urls ∨ containsKey acc k = true)) ∧
        ((acc.map Prod.fst).Nodup → (c.map Prod.fst).Nodup) := by
  intro urls
  induction urls with
  | nil =>
      intro acc _
      exact ⟨acc, rfl, by intro k; simp, fun h => h⟩
  | cons raw rest ih =>
      intro acc hvalid
      have hv : validTarget parse raw = true := hvalid raw (List.mem_cons_self _ _)
      obtain ⟨target, hp, hs, hq⟩ := (validTarget_true_iff parse raw).mp hv
      rw [newComponentsLoop_valid_step parse e dec raw rest acc target hp hs hq]
      obtain ⟨c, hc, hcont, hnd⟩ := ih
        (mapInsert acc raw
          { method := "GET", target := target,
            encode := encodeComponentRequestFn e, decode := dec })
        (fun r hr => hvalid r (List.mem_cons_of_mem _ hr))
      refine ⟨c, hc, ?_, ?_⟩
      · intro k
        rw [hcont k, containsKey_mapInsert]
        simp only [List.mem_cons, Bool.or_eq_true, beq_iff_eq]
        constructor
        · rintro (h | h | h)
          · exact Or.inl (Or.inr h)
          · exact Or.inl (Or.inl h.symm)
          · exact Or.inr h
        · rintro ((h | h) | h)
          · exact Or.inr (Or.inl h.symm)
          · exact Or.inl h
          · exact Or.inr (Or.inr h)
      · intro hacc
        exact hnd (keys_nodup_mapInsert acc raw _ hacc)

/-- When some supplied address is invalid, the loop returns an error value
(never a panic, never a mapping). -/
theorem newComponentsLoop_some_invalid (parse : String → Option URL) (e : EntityEncoder)
    (dec : DecodeResponseFunc) :
    ∀ (urls : List String) (acc : Components) (raw : String),
      raw ∈ urls → validTarget parse raw = false →
      (newComponentsLoop parse (some e) dec urls acc).isErrored = true := by
  intro urls
  induction urls with
  | nil =>
      intro acc raw h
      cases h
  | cons head rest ih =>
      intro acc raw hmem hv
      by_cases hvh : validTarget parse head = true
      · rcases List.mem_cons.mp hmem with rfl | hr
        · rw [hvh] at hv
          cases hv
        · obtain ⟨target, hp, hs, hq⟩ := (validTarget_true_iff parse head).mp hvh
          rw [newComponentsLoop_valid_step parse e dec head rest acc target hp hs hq]
          exact ih _ raw hr hv
      · exact newComponentsLoop_invalid_step parse e dec head rest acc
          (Bool.not_eq_true _ ▸ Bool.of_not_eq_true hvh)

/-- An error result is in particular not a panic. -/
theorem isPanic_eq_false_of_isErrored {α : Type} (r : ConstructionResult α)
    (h : r.isErrored = true) : r.isPanic = false := by
  cases r <;> simp [ConstructionResult.isErrored, ConstructionResult.isPanic] at *

/-- C8: with every supplied target base address valid (parseable, with a
scheme, without a query component), NewComponents succeeds with a key-unique
mapping containing an endpoint for exactly the supplied addresses; with any
invalid address among them, NewComponents returns a nil mapping and a non-nil
error. -/
theorem new_components_spec (parse : String → Option URL) (urls : List String)
    (e : EntityEncoder) (dec : DecodeResponseFunc) :
    ((∀ raw ∈ urls, validTarget parse raw = true) →
        (NewComponents parse urls (some e) dec).isOk = true ∧
        (((NewComponents parse urls (some e) dec).valueOr []).map Prod.fst).Nodup ∧
        (∀ raw, containsKey ((NewComponents parse urls (some e) dec).valueOr []) raw = true ↔
            raw ∈ urls)) ∧
    (∀ raw ∈ urls, validTarget parse raw = false →
        (NewComponents parse urls (some e) dec).isErrored = true) := by
  constructor
  · intro hvalid
    obtain ⟨c, hc, hcont, hnd⟩ := newComponentsLoop_all_valid parse e dec urls [] hvalid
    unfold NewComponents
    rw [hc]
    refine ⟨rfl, hnd (by simp), ?_⟩
    intro raw
    have h := hcont raw
    simpa [containsKey] using h
  · intro raw hmem hv
    exact newComponentsLoop_some_invalid parse e dec urls [] raw hmem hv

/-! ### Fixtures for construction witnesses -/

/-- A concrete stand-in for net/url parsing over the handful of raw addresses
the witnesses use. -/
def testParse : String → Option URL := fun raw =>
  if raw = "http://a" then
    some { scheme := "http", host := "a", user := none, path := "", rawQuery := "" }
  else if raw = "http://b/base" then
    some { scheme := "http", host := "b", user := none, path := "/base", rawQuery := "" }
  else if raw = "relative/path" then
    some { scheme := "", host := "", user := none, path := "relative/path", rawQuery := "" }
  else if raw = "http://q?x=1" then
    some { scheme := "http", host := "q", user := none, path := "", rawQuery := "x=1" }
  else none

def decodeResponseOk : DecodeResponseFunc := fun _ => Except.ok 0

/-- Counterexample to C5 as stated: a configured target base address missing
a scheme, and one carrying a query component, each make NewComponents return
an ordinary error value — construction does not panic there. -/
theorem construction_error_not_panic_cex :
    (NewComponents testParse ["relative/path"] (some entityEncoderId)
        decodeResponseOk).isPanic = false ∧
    (NewComponents testParse ["relative/path"] (some entityEncoderId)
        decodeResponseOk).isErrored = true ∧
    (NewComponents testParse ["http://q?x=1"] (some entityEncoderId)
        decodeResponseOk).isPanic = false ∧
    (NewComponents testParse ["http://q?x=1"] (some entityEncoderId)
        decodeResponseOk).isErrored = true :=
  ⟨rfl, rfl, rfl, rfl⟩

/-- C5 (amended): the nil-hook misconfigurations panic — a nil request-decode
hook given to the handler factory and a nil component-encode hook given to
the component factory — but a configured target base address missing a scheme
or carrying a query component causes NewComponents to return a nil mapping
with a non-nil error rather than panicking. -/
theorem construction_failure_modes :
    (decodeFanoutRequest none).isPanic = true ∧
    (encodeComponentRequest none).isPanic = true ∧
    (∀ (parse : String → Option URL) (urls : List String) (e : EntityEncoder)
        (dec : DecodeResponseFunc) (raw : String),
        raw ∈ urls → validTarget parse raw = false →
        (NewComponents parse urls (some e) dec).isErrored = true ∧
        (NewComponents parse urls (some e) dec).isPanic = false) := by
  refine ⟨rfl, rfl, ?_⟩
  intro parse urls e dec raw hmem hv
  have h := newComponentsLoop_some_invalid parse e dec urls [] raw hmem hv
  exact ⟨h, isPanic_eq_false_of_isErrored _ h⟩

/-- Witness for C5 (amended) at a concrete query-carrying target. -/
theorem construction_failure_modes_witness :
    (NewComponents testParse ["http://q?x=1"] (some entityEncoderId)
        decodeResponseOk).isErrored = true ∧
    (NewComponents testParse ["http://q?x=1"] (some entityEncoderId)
        decodeResponseOk).isPanic = false :=
  construction_failure_modes.2.2 testParse ["http://q?x=1"] entityEncoderId decodeResponseOk
    "http://q?x=1" (by simp) (by decide)

/-- Witness for C8: two valid targets yield a key-unique two-entry mapping;
one schemeless target yields an error. -/
theorem new_components_spec_witness :
    (NewComponents testParse ["http://a", "http://b/base"] (some entityEncoderId)
        decodeResponseOk).isOk = true ∧
    (((NewComponents testParse ["http://a", "http://b/base"] (some entityEncoderId)
        decodeResponseOk).valueOr []).map Prod.fst).Nodup ∧
    (containsKey ((NewComponents testParse ["http://a", "http://b/base"] (some entityEncoderId)
        decodeResponseOk).valueOr []) "http://a" = true ↔
      "http://a" ∈ ["http://a", "http://b/base"]) ∧
    (NewComponents testParse ["relative/path"] (some entityEncoderId)
        decodeResponseOk).isErrored = true := by
  have hvalid : ∀ raw ∈ ["http://a", "http://b/base"], validTarget testParse raw = true := by
    decide
  obtain ⟨h1, h2, h3⟩ :=
    (new_components_spec testParse ["http://a", "http://b/base"] entityEncoderId
      decodeResponseOk).1 hvalid
  refine ⟨h1, h2, h3 "http://a", ?_⟩
  exact (new_components_spec testParse ["relative/path"] entityEncoderId decodeResponseOk).2
    "relative/path" (by simp) (by decide)

/-! ## WRP client response decoders (wrp/wrphttp/decoders.go)

`wrp.FormatFromContentType`, `wrpendpoint.DecodeResponseBytes` and
`NewMessageFromHeaders` belong to packages whose sources are not provided;
they are passed in as parameters, so the theorems hold for every choice of
those collaborators.  WRP response values and messages are opaque `Nat`s. -/

/-- WRP serialization formats distinguished by a decoder pool. -/
inductive Format where
  | msgpack
  | json
deriving DecidableEq

/-- httperror.E: an HTTP-classified error value with a status code and
message text (text is empty when the source supplies none). -/
structure HErr where
  code : Nat
  text : String
deriving DecidableEq

/-- ClientDecodeResponseBody: on a 200 response, derive the response format
from the Content-Type header (bad-request error when that fails), reject a
format different from the pool's (unsupported-media-type error), then decode
the body (internal error when that fails); a non-200 status is surfaced as an
error carrying that status code. -/
def ClientDecodeResponseBody (formatFromContentType : String → Except String Format)
    (poolFormat : Format) (decodeResponseBytes : String → Except String Nat)
    (httpResponse : HTTPResponse) : Except HErr Nat :=
  if httpResponse.statusCode = 200 then
    match formatFromContentType httpResponse.contentType with
    | Except.error e => Except.error { code := 400, text := e }
    | Except.ok responseFormat =>
        if responseFormat ≠ poolFormat then
          Except.error
            ⟨415, "Unexpected response Content-Type: " ++ httpResponse.contentType⟩
        else
          match decodeResponseBytes httpResponse.body with
          | Except.error e => Except.error { code := 500, text := e }
          | Except.ok response => Except.ok response
  else
    Except.error { code := httpResponse.statusCode, text := "" }

/-- ClientDecodeResponseHeaders: on a 200 response, build the message from
the headers and body (bad-request error when that fails) and wrap it as a
response; the source's internal-error branch is dead code (its error operand
is literally nil) and therefore does not appear.  A non-200 status is
surfaced as an error carrying that status code. -/
def ClientDecodeResponseHeaders (newMessageFromHeaders : HTTPResponse → Except String Nat)
    (wrapAsResponse : Nat → Nat) (httpResponse : HTTPResponse) : Except HErr Nat :=
  if httpResponse.statusCode = 200 then
    match newMessageFromHeaders httpResponse with
    | Except.error e => Except.error { code := 400, text := e }
    | Except.ok message => Except.ok (wrapAsResponse message)
  else
    Except.error { code := httpResponse.statusCode, text := "" }

/-- C9: for a status-200 backend response, the component response decoders
classify failures by cause — an unparseable Content-Type yields a
bad-request-class error, a parsed format differing from the pool's expected
decode format yields an unsupported-media-class error (never a success), and
a downstream body-decode failure yields an internal-class error — and return
a response value only when the content type matches and decoding succeeds;
the headers-based decoder classifies its header-parse failures as
bad-request-class likewise. -/
theorem client_decode_response_classification
    (formatFromContentType : String → Except String Format) (poolFormat : Format)
    (decodeResponseBytes : String → Except String Nat)
    (newMessageFromHeaders : HTTPResponse → Except String Nat) (wrapAsResponse : Nat → Nat)
    (resp : HTTPResponse) (h200 : resp.statusCode = 200) :
    (∀ e, formatFromContentType resp.contentType = Except.error e →
        ClientDecodeResponseBody formatFromContentType poolFormat decodeResponseBytes resp =
          Except.error { code := 400, text := e }) ∧
    (∀ rf, formatFromContentType resp.contentType = Except.ok rf → rf ≠ poolFormat →
        ClientDecodeResponseBody formatFromContentType poolFormat decodeResponseBytes resp =
          Except.error
            ⟨415, "Unexpected response Content-Type: " ++ resp.contentType⟩) ∧
    (∀ e, formatFromContentType resp.contentType = Except.ok poolFormat →
        decodeResponseBytes resp.body = Except.error e →
        ClientDecodeResponseBody formatFromContentType poolFormat decodeResponseBytes resp =
          Except.error { code := 500, text := e }) ∧
    (∀ r, formatFromContentType resp.contentType = Except.ok poolFormat →
        decodeResponseBytes resp.body = Except.ok r →
        ClientDecodeResponseBody formatFromContentType poolFormat decodeResponseBytes resp =
          Except.ok r) ∧
    (∀ e, newMessageFromHeaders resp = Except.error e →
        ClientDecodeResponseHeaders newMessageFromHeaders wrapAsResponse resp =
          Except.error { code := 400, text := e }) := by
  refine ⟨?_, ?_, ?_, ?_, ?_⟩
  · intro e hfmt
    simp [ClientDecodeResponseBody, h200, hfmt]
  · intro rf hfmt hne
    simp [ClientDecodeResponseBody, h200, hfmt, hne]
  · intro e hfmt hdec
    simp [ClientDecodeResponseBody, h200, hfmt, hdec]
  · intro r hfmt hdec
    simp [ClientDecodeResponseBody, h200, hfmt, hdec]
  · intro e hmsg
    simp [ClientDecodeResponseHeaders, h200, hmsg]

/-! ### Fixtures for the decoder witness -/

def formatJSONOnly : String → Except String Format := fun _ => Except.ok Format.json

def decodeBytesOk : String → Except String Nat := fun _ => Except.ok 3

def headersMsgOk : HTTPResponse → Except String Nat := fun _ => Except.ok 0

def sampleResponse : HTTPResponse :=
  { statusCode := 200, contentType := "application/json", body := "payload" }

/-- Witness for C9 at a concrete 200 response whose content type parses as
JSON while the pool expects Msgpack: an unsupported-media-type error, not a
success. -/
theorem client_decode_response_classification_witness :
    ClientDecodeResponseBody formatJSONOnly Format.msgpack decodeBytesOk sampleResponse =
      Except.error ⟨415, "Unexpected response Content-Type: application/json"⟩ :=
  (client_decode_response_classification formatJSONOnly Format.msgpack decodeBytesOk
      headersMsgOk id sampleResponse rfl).2.1 Format.json rfl (by decide)
